import Mathlib

/-!
# A verification development for the songflong download/transcode pipeline

Shallow embedding of the concurrent fetch-and-transcode pipeline:

* `Job`, `WorkQueue` (Python `queue.Queue` with its `unfinished_tasks`
  counter), the worker loop `VideoWorker.run`, and the `DownloadQueue`
  orchestrator from `songflong2/runner.py`;
* the two ffmpeg wrapper modules `app/songflong/ffmpeg.py` and
  `app2/songflong/ffmpeg.py`.

Threads are modelled by explicit interleavings: a scheduler picks which
worker steps next, and blocking operations (`get` on an empty queue,
`join` with a non-zero counter) are represented by "not yet enabled"
rather than by a result.
-/

/-- One unit of work, the 4-tuple `(video_file, title, link, download_dir)`
put on the queue by `DownloadQueue.load_links`. -/
structure Job where
  videoFile : String
  title : String
  link : String
  downloadDir : String
deriving DecidableEq, Repr

/-- The state of a Python `queue.Queue`: the deque of pending items and the
`unfinished_tasks` counter (a Python `int`, so modelled as `Int`). -/
structure WorkQueue (α : Type) where
  items : List α
  unfinished : Int
deriving DecidableEq, Repr

namespace WorkQueue

/-- Model of `Queue()` — freshly constructed queue: no items, `unfinished_tasks = 0`. -/
def init (α : Type) : WorkQueue α := { items := [], unfinished := 0 }

/-- Model of `Queue.put(item)` on an unbounded queue: append the item to the tail of
the deque and increment `unfinished_tasks`.  Total: never blocks, never
fails. -/
def put (q : WorkQueue α) (x : α) : WorkQueue α :=
  { items := q.items ++ [x], unfinished := q.unfinished + 1 }

/-- Model of `Queue.get()`: `none` when the queue is empty (the caller blocks),
otherwise pop the head of the deque (`popleft`) and return it together with
the new queue state.  `unfinished_tasks` is untouched by `get`. -/
def get (q : WorkQueue α) : Option (α × WorkQueue α) :=
  match q.items with
  | [] => none
  | x :: rest => some (x, { items := rest, unfinished := q.unfinished })

/-- Model of `Queue.task_done()`: compute `unfinished_tasks - 1`; if that is negative
raise `ValueError('task_done() called too many times')` without updating the
counter, otherwise store the decremented counter. -/
def task_done (q : WorkQueue α) : Except String (WorkQueue α) :=
  let u := q.unfinished - 1
  if u < 0 then .error "task_done() called too many times"
  else .ok { q with unfinished := u }

/-- Model of `Queue.join()`: blocks while `unfinished_tasks` is non-zero.  `some`
means the call returns (with the unchanged queue), `none` means the caller
is still blocked on the barrier. -/
def join (q : WorkQueue α) : Option (WorkQueue α) :=
  if q.unfinished = 0 then some q else none

end WorkQueue

/-! ## `transcribe_video` (runner.py)

`transcribe_video` calls moviepy's `ffmpeg_merge_video_audio` with the
video file, the downloaded audio file, and the output path
`download_dir / <the f-string producing output-uuid4.mp4>`, with copy codecs
and `ffmpeg_output=True`.  The call is captured as a record;
the freshly drawn `uuid.uuid4()` string is an explicit parameter. -/

/-- The argument record of a `ffmpeg_merge_video_audio` invocation. -/
structure MergeCall where
  video : String
  audio : String
  output : String
  vcodec : String
  acodec : String
  ffmpeg_output : Bool
deriving DecidableEq, Repr

/-- Model of pathlib's `dir / name`: join with a path separator. -/
def joinPath (dir name : String) : String := dir ++ "/" ++ name

/-- Model of `transcribe_video(video_file, audio_file, download_dir)` with the value
drawn from `uuid.uuid4()` made explicit as `uid`. -/
def transcribe_video (video_file audio_file download_dir uid : String) :
    MergeCall :=
  { video := video_file
  , audio := audio_file
  , output := joinPath download_dir ("output-" ++ uid ++ ".mp4")
  , vcodec := "copy"
  , acodec := "copy"
  , ffmpeg_output := true }

/-! ## `VideoWorker.run` (runner.py)

The worker loop: `get` a job, `try:` download the audio stream then
transcribe, `finally:` `task_done`.  The Downloader and the Transcoder are
external collaborators passed in as functions that may raise
(`Except String`). -/

/-- The body of one loop iteration after the `get`: download the audio
stream for the job's link, then merge it with the job's video file
(`transcribe_video`).  An error from either collaborator escapes. -/
def processJob (download : String → String → Except String String)
    (merge : MergeCall → Except String Unit) (uid : String) (j : Job) :
    Except String Unit := do
  let audio_file ← download j.link j.downloadDir
  merge (transcribe_video j.videoFile audio_file j.downloadDir uid)

/-- How a worker's `run` loop left off. -/
inductive WorkerStatus where
  /-- Fuel ran out while the loop was still going. -/
  | looping
  /-- The queue was empty: the worker is blocked inside `get`. -/
  | blockedOnGet
  /-- `task_done` raised `ValueError`; it propagates out of the `finally`. -/
  | barrierFailure (msg : String)
  /-- The job's processing raised; after the `finally` ran `task_done`, the
  exception escaped the `while True` loop and the worker terminated. -/
  | crashed (e : String)
deriving DecidableEq, Repr

/-- Model of `VideoWorker.run`, fuel-bounded: each iteration pops the head job,
evaluates the `try` body, then runs `task_done` in the `finally`; an
exception from the body escapes the loop once the `finally` has run.
Returns the list of jobs dequeued (in order), the final queue state, and
how the loop left off. -/
def VideoWorker.run (proc : Job → Except String Unit) :
    Nat → WorkQueue Job → List Job × WorkQueue Job × WorkerStatus
  | 0, q => ([], q, .looping)
  | fuel + 1, q =>
    match q.items with
    | [] => ([], q, .blockedOnGet)
    | j :: rest =>
      let q1 : WorkQueue Job := { items := rest, unfinished := q.unfinished }
      let r := proc j
      match q1.task_done with
      | .error msg => ([j], q1, .barrierFailure msg)
      | .ok q2 =>
        match r with
        | .error e => ([j], q2, .crashed e)
        | .ok () =>
          let (js, q', st) := VideoWorker.run proc fuel q2
          (j :: js, q', st)

/-! ## `DownloadQueue` (runner.py) -/

/-- A spawned `VideoWorker` as the orchestrator sees it: which queue it is
bound to (by identifier) and its `daemon` flag. -/
structure VideoWorkerRef where
  queueId : Nat
  daemon : Bool
deriving DecidableEq, Repr

/-- Model of `DownloadQueue._spawn_worker(queue)`: build a `VideoWorker` on the given
queue, set `daemon = True`, start it. -/
def DownloadQueue.spawn_worker (qid : Nat) : VideoWorkerRef :=
  { queueId := qid, daemon := true }

/-- The state of a `DownloadQueue` right after `__init__`. -/
structure DownloadQueueState where
  count : Nat
  queueId : Nat
  queue : WorkQueue Job
  workers : List VideoWorkerRef
deriving DecidableEq, Repr

/-- The default of `__init__`'s `count` parameter. -/
def DownloadQueue.defaultCount : Nat := 2

/-- Model of `DownloadQueue.__init__(count=2)`: store the count, create one fresh
`Queue`, and spawn one worker per loop index of `range(count)`, all bound
to that single queue — all before any job can be enqueued. -/
def DownloadQueue.init (count : Nat) (qid : Nat) : DownloadQueueState :=
  { count := count
  , queueId := qid
  , queue := WorkQueue.init Job
  , workers := (List.range count).map (fun _ => DownloadQueue.spawn_worker qid) }

/-- Build the job tuple `(video_file, title, link, download_dir)` for one
`(title, link)` pair. -/
def mkJob (video_file download_dir : String) (tl : String × String) : Job :=
  { videoFile := video_file, title := tl.1, link := tl.2
  , downloadDir := download_dir }

/-- Model of `DownloadQueue.load_links(links, video_file, download_dir)`: for each
`(title, link)` pair in order, `put` the tuple on the queue.  (The
`logger.info` call has no effect on the state.) -/
def DownloadQueue.load_links (q : WorkQueue Job) (links : List (String × String))
    (video_file download_dir : String) : WorkQueue Job :=
  links.foldl (fun q tl => q.put (mkJob video_file download_dir tl)) q

/-- Model of `DownloadQueue.close()`: it runs `self.queue.join()`. -/
def DownloadQueue.close (q : WorkQueue Job) : Option (WorkQueue Job) :=
  q.join

/-- Model of `DownloadQueue.__exit__(type, value, traceback)`: call `close()`
(blocking on the barrier — `none` while blocked) and fall off the end of
the method, i.e. return Python's `None` (modelled `Option Bool` with
`none` for `None`). -/
def DownloadQueue.exitDunder (q : WorkQueue Job) (ty val tb : Option String) :
    Option (WorkQueue Job × Option Bool) :=
  (DownloadQueue.close q).map (fun q' => (q', none))

/-- Python's truthiness test applied to an `__exit__` return value: an
exception raised in the `with` body is suppressed exactly when the value is
truthy (`None` is falsy). -/
def exitSuppresses : Option Bool → Bool
  | some b => b
  | none => false

/-- Leaving a `with DownloadQueue(...)` block whose body finished with
`bodyExc` (`some e` if it raised `e`, `none` otherwise): run `__exit__`,
then re-raise the body's exception unless the return value is truthy.
`none` means still blocked inside `close()`; `some out` means the block
exited with `out` as the propagated exception (or `none` for a clean
exit). -/
def withDownloadQueueExit (q : WorkQueue Job) (bodyExc : Option String) :
    Option (Option String) :=
  (DownloadQueue.exitDunder q bodyExc bodyExc bodyExc).map
    (fun r => if exitSuppresses r.2 then none else bodyExc)

/-! ## The two ffmpeg wrapper modules

`app/songflong/ffmpeg.py` and `app2/songflong/ffmpeg.py`.  A finished
subprocess is its `returncode` (an `int`) and its captured stderr bytes;
`err.decode('utf8')` is an explicit decoding function. -/

/-- A spawned subprocess after `communicate()`: return code and the bytes
read from the `stderr` pipe. -/
structure ProcResult where
  returncode : Int
  stderrBytes : List Nat
deriving DecidableEq, Repr

namespace app

/-- Model of `app/songflong/ffmpeg.py : subprocess_call(cmd)` from the point where
the process has run: `if proc.returncode:` raise
`IOError(err.decode('utf8'))`, else return normally.  (The proglog logger
calls are pure observability.) -/
def subprocess_call (decodeUtf8 : List Nat → String) (proc : ProcResult) :
    Except String Unit :=
  if proc.returncode ≠ 0 then .error (decodeUtf8 proc.stderrBytes)
  else .ok ()

/-- The command list built by `app/songflong/ffmpeg.py :
ffmpeg_merge_video_audio(video, audio, output)`; the executable path comes
from `current_app.config.get("FFMPEG_PATH")`, here the parameter
`ffmpeg_path`. -/
def ffmpeg_merge_cmd (ffmpeg_path video audio output : String) : List String :=
  [ffmpeg_path, "-y", "-i", audio, "-i", video,
   "-vcodec", "copy", "-acodec", "copy", output]

end app

namespace app2

/-- Model of `app2/songflong/ffmpeg.py : subprocess_call(cmd)`, embedded the same
way as `app.subprocess_call` (the two Python function bodies are
textually identical). -/
def subprocess_call (decodeUtf8 : List Nat → String) (proc : ProcResult) :
    Except String Unit :=
  if proc.returncode ≠ 0 then .error (decodeUtf8 proc.stderrBytes)
  else .ok ()

/-- The command list built by `app2/songflong/ffmpeg.py :
ffmpeg_merge_video_audio(video, audio, output)`; the executable path comes
from `imageio.plugins.ffmpeg.get_exe()`, here the parameter `exe`. -/
def ffmpeg_merge_cmd (exe video audio output : String) : List String :=
  [exe, "-y", "-i", audio, "-i", video,
   "-vcodec", "copy", "-acodec", "copy", output]

end app2

/-! ## Arbitrary operation traces on the queue

For the queue-invariant claims: a trace of raw `put`/`get`/`task_done`
operations against one queue, executed sequentially (each Python `Queue`
operation is atomic under the queue's internal lock, so any interleaving
of callers is some sequential trace). -/

/-- One raw queue operation. -/
inductive QOp (α : Type) where
  | put (x : α)
  | get
  | done
deriving DecidableEq, Repr

/-- Outcome of executing a trace. -/
inductive TraceResult (α : Type) where
  /-- Every operation went through. -/
  | ok (q : WorkQueue α)
  /-- A `get` found the queue empty: that caller blocks. -/
  | blocked
  /-- A `task_done` raised `ValueError`. -/
  | failed (msg : String)
deriving DecidableEq, Repr

/-- Execute one raw operation. -/
def stepOp (q : WorkQueue α) : QOp α → TraceResult α
  | .put x => .ok (q.put x)
  | .get =>
    match q.get with
    | none => .blocked
    | some (_, q') => .ok q'
  | .done =>
    match q.task_done with
    | .error msg => .failed msg
    | .ok q' => .ok q'

/-- Execute a trace of raw operations from a given queue state. -/
def runTrace (q : WorkQueue α) : List (QOp α) → TraceResult α
  | [] => .ok q
  | op :: rest =>
    match stepOp q op with
    | .ok q' => runTrace q' rest
    | .blocked => .blocked
    | .failed msg => .failed msg

/-- Count the `done` operations in a trace. -/
def countDones (tr : List (QOp α)) : Nat :=
  tr.countP (fun op => op matches .done)

/-- Count the `get` operations in a trace. -/
def countGets (tr : List (QOp α)) : Nat :=
  tr.countP (fun op => op matches .get)

/-! ## The pipeline as an interleaved system

For the completion-barrier claim: `W` workers share the queue; each worker
is either idle (about to `get`) or holding a dequeued job (its iteration
will end with `task_done`).  A schedule says which worker takes its next
atomic queue operation; scheduling a blocked or nonexistent worker is a
no-op.  The run also counts the `get` and `task_done` operations
performed. -/

/-- A worker's position in its loop, as seen from the queue. -/
inductive WState where
  | idle
  | holding (j : Job)
deriving DecidableEq, Repr

/-- Returns `true` on a worker currently holding a dequeued, not-yet-marked-done
job. -/
def WState.isHolding : WState → Bool
  | .idle => false
  | .holding _ => true

/-- Queue plus the local states of the worker pool. -/
structure SysState where
  q : WorkQueue Job
  workers : List WState
deriving DecidableEq, Repr

/-- Number of workers holding a dequeued job. -/
def countHolding (ws : List WState) : Nat :=
  ws.countP WState.isHolding

/-- Run a schedule: at each schedule entry `i`, worker `i` performs its
next queue operation (`get` when idle, `task_done` when holding).  An idle
worker facing an empty queue stays blocked (no-op), as does an index with
no worker.  `none` only if a `task_done` raises `ValueError`.  Returns the
final state and the counts of performed `get` and `task_done`
operations. -/
def runSched : SysState → List Nat → Option (SysState × Nat × Nat)
  | s, [] => some (s, 0, 0)
  | s, i :: rest =>
    match s.workers.get? i with
    | none => runSched s rest
    | some .idle =>
      match s.q.get with
      | none => runSched s rest
      | some (j, q') =>
        (runSched { q := q', workers := s.workers.set i (.holding j) } rest).map
          (fun r => (r.1, r.2.1 + 1, r.2.2))
    | some (.holding _) =>
      match s.q.task_done with
      | .error _ => none
      | .ok q' =>
        (runSched { q := q', workers := s.workers.set i .idle } rest).map
          (fun r => (r.1, r.2.1, r.2.2 + 1))

/-- The pipeline system right after `DownloadQueue(count=W)` was
constructed and `load_links(links, video_file, download_dir)` submitted the
batch: the queue holds the jobs, every worker is idle at the top of its
loop. -/
def initSys (W : Nat) (links : List (String × String))
    (video_file download_dir : String) : SysState :=
  { q := DownloadQueue.load_links (WorkQueue.init Job) links video_file download_dir
  , workers := List.replicate W .idle }

/-! ## Helper lemmas -/

/-- Two strings with equal character data are equal. -/
lemma string_ext (a b : String) (h : a.data = b.data) : a = b := by
  cases a; cases b; exact congrArg String.mk h

/-- The output path built by `transcribe_video` determines the embedded
unique identifier. -/
lemma output_path_inj (d a b : String)
    (h : joinPath d ("output-" ++ a ++ ".mp4") =
         joinPath d ("output-" ++ b ++ ".mp4")) : a = b := by
  have hd := congrArg String.data h
  simp only [joinPath, String.data_append, List.append_assoc] at hd
  exact string_ext a b
    (List.append_cancel_right
      (List.append_cancel_left (List.append_cancel_left (List.append_cancel_left hd))))

/-- `load_links` appends one job per `(title, link)` pair, in order, to the
tail of the pending sequence. -/
lemma load_links_items (links : List (String × String)) (q : WorkQueue Job)
    (vf dir : String) :
    (DownloadQueue.load_links q links vf dir).items =
      q.items ++ links.map (mkJob vf dir) := by
  induction links generalizing q with
  | nil => simp [DownloadQueue.load_links]
  | cons tl rest ih =>
    simp [DownloadQueue.load_links] at ih ⊢
    rw [ih]
    simp [WorkQueue.put]

/-- `load_links` increments the outstanding counter once per submitted
pair. -/
lemma load_links_unfinished (links : List (String × String)) (q : WorkQueue Job)
    (vf dir : String) :
    (DownloadQueue.load_links q links vf dir).unfinished =
      q.unfinished + links.length := by
  induction links generalizing q with
  | nil => simp [DownloadQueue.load_links]
  | cons tl rest ih =>
    simp [DownloadQueue.load_links] at ih ⊢
    rw [ih]
    simp [WorkQueue.put]
    ring

/-! ## The claims -/

/-- C4: for every job, `transcribe_video` writes the merged output to a
freshly generated name of the form `output-<unique-id>.mp4` inside the
job's download directory, and two jobs against the same seed video and
directory that draw distinct identifiers receive distinct output paths. -/
theorem C4_transcribe_unique_output (v a d uid1 uid2 : String) :
    (transcribe_video v a d uid1).output =
      joinPath d ("output-" ++ uid1 ++ ".mp4") ∧
    (uid1 ≠ uid2 →
      (transcribe_video v a d uid1).output ≠ (transcribe_video v a d uid2).output) := by
  refine ⟨rfl, fun hne heq => hne ?_⟩
  exact output_path_inj d uid1 uid2 heq

/-- Witness for C4 at concrete distinct identifiers. -/
theorem C4_transcribe_unique_output_witness :
    (transcribe_video "v.mp4" "a.webm" "temp" "aaaa").output ≠
      (transcribe_video "v.mp4" "a.webm" "temp" "bbbb").output :=
  (C4_transcribe_unique_output "v.mp4" "a.webm" "temp" "aaaa" "bbbb").2 (by decide)

/-- C6: in both ffmpeg modules, `subprocess_call` raises an `IOError`
carrying the subprocess's stderr output decoded as UTF-8 if and only if the
process exited with a non-zero return code, and returns normally on a zero
return code. -/
theorem C6_subprocess_call_raises_iff_nonzero (decodeUtf8 : List Nat → String)
    (p : ProcResult) :
    (app.subprocess_call decodeUtf8 p = .error (decodeUtf8 p.stderrBytes) ↔
      p.returncode ≠ 0) ∧
    (p.returncode = 0 → app.subprocess_call decodeUtf8 p = .ok ()) ∧
    (app2.subprocess_call decodeUtf8 p = .error (decodeUtf8 p.stderrBytes) ↔
      p.returncode ≠ 0) ∧
    (p.returncode = 0 → app2.subprocess_call decodeUtf8 p = .ok ()) := by
  unfold app.subprocess_call app2.subprocess_call
  by_cases h : p.returncode = 0 <;> simp [h]

/-- Witness for C6 at a failing and a succeeding concrete process. -/
theorem C6_subprocess_call_raises_iff_nonzero_witness :
    app.subprocess_call (fun _ => "boom") ⟨1, [98]⟩ = .error "boom" ∧
    app2.subprocess_call (fun _ => "boom") ⟨0, []⟩ = .ok () :=
  ⟨(C6_subprocess_call_raises_iff_nonzero (fun _ => "boom") ⟨1, [98]⟩).1.mpr
      (by decide),
   (C6_subprocess_call_raises_iff_nonzero (fun _ => "boom") ⟨0, []⟩).2.2.2 rfl⟩

/-- C7: constructing a `DownloadQueue` with worker count `N` spawns exactly
`N` daemon workers, all bound to the single shared queue, at construction
time with the queue still empty (before any job can be enqueued); the
default worker count is the constant 2, inside the 2-8 range. -/
theorem C7_init_spawns_n_daemon_workers (N qid : Nat) :
    (DownloadQueue.init N qid).workers =
      List.replicate N { queueId := qid, daemon := true } ∧
    (DownloadQueue.init N qid).count = N ∧
    (DownloadQueue.init N qid).queue = WorkQueue.init Job ∧
    DownloadQueue.defaultCount = 2 ∧
    2 ≤ DownloadQueue.defaultCount ∧ DownloadQueue.defaultCount ≤ 8 := by
  refine ⟨?_, rfl, rfl, rfl, by decide, by decide⟩
  simp [DownloadQueue.init, DownloadQueue.spawn_worker]

/-- C8: `load_links` enqueues exactly one job per `(title, link)` pair, in
input order, each job carrying the shared video file and download directory
unchanged; `put` appends to the tail and increments the outstanding count
(and both are total functions: they never block and never fail). -/
theorem C8_load_links_enqueues_in_order (q : WorkQueue Job)
    (links : List (String × String)) (vf dir : String) :
    (DownloadQueue.load_links q links vf dir).items =
      q.items ++ links.map (fun tl =>
        { videoFile := vf, title := tl.1, link := tl.2, downloadDir := dir }) ∧
    (DownloadQueue.load_links q links vf dir).unfinished =
      q.unfinished + links.length ∧
    (∀ x : Job, (q.put x).items = q.items ++ [x] ∧
      (q.put x).unfinished = q.unfinished + 1) := by
  refine ⟨?_, load_links_unfinished links q vf dir, fun x => ⟨rfl, rfl⟩⟩
  rw [load_links_items links q vf dir]
  simp [mkJob]

/-- C9: the two ffmpeg wrapper modules are behaviorally equivalent: their
`subprocess_call` functions agree on every input, and given the same
ffmpeg executable path their `ffmpeg_merge_video_audio` functions build
exactly the same command list. -/
theorem C9_ffmpeg_modules_equivalent :
    (∀ (decodeUtf8 : List Nat → String) (p : ProcResult),
      app.subprocess_call decodeUtf8 p = app2.subprocess_call decodeUtf8 p) ∧
    (∀ exe video audio output : String,
      app.ffmpeg_merge_cmd exe video audio output =
        app2.ffmpeg_merge_cmd exe video audio output) :=
  ⟨fun _ _ => rfl, fun _ _ _ _ => rfl⟩

/-- C10: `DownloadQueue.__exit__` calls `close()` unconditionally — its
completion depends only on the barrier (`unfinished = 0`), never on the
exception arguments — and returns Python's `None`, which is falsy, so an
exception raised in the `with` body is propagated, not suppressed. -/
theorem C10_exit_closes_and_propagates (q : WorkQueue Job)
    (ty val tb : Option String) (bodyExc : Option String) :
    DownloadQueue.exitDunder q ty val tb =
      (if q.unfinished = 0 then some (q, none) else none) ∧
    withDownloadQueueExit q bodyExc =
      (if q.unfinished = 0 then some bodyExc else none) := by
  unfold withDownloadQueueExit DownloadQueue.exitDunder DownloadQueue.close
    WorkQueue.join exitSuppresses
  by_cases h : q.unfinished = 0 <;> simp [h]

/-- A concrete job for witnesses and counterexamples. -/
def demoJob : Job :=
  { videoFile := "video.mp4", title := "SongA", link := "linkA"
  , downloadDir := "temp" }

/-- C2: if the Downloader or the Transcoder raises while a worker processes
a dequeued job, `task_done` is still called for that job (the counter is
decremented by the `finally` block), but the exception then escapes the
`while True` loop and terminates that worker: only the one failing job is
dequeued, no matter how much longer the worker could have run. -/
theorem C2_error_kills_worker_after_markdone
    (download : String → String → Except String String)
    (merge : MergeCall → Except String Unit) (uid : String) (fuel : Nat)
    (q : WorkQueue Job) (j : Job) (rest : List Job) (e : String)
    (hitems : q.items = j :: rest) (hu : 1 ≤ q.unfinished)
    (hproc : processJob download merge uid j = .error e) :
    VideoWorker.run (processJob download merge uid) (fuel + 1) q =
      ([j], { items := rest, unfinished := q.unfinished - 1 },
        .crashed e) := by
  have hguard : ¬ q.unfinished - 1 < 0 := by omega
  simp [VideoWorker.run, hitems, WorkQueue.task_done, hguard, hproc]

/-- Witness for C2: one job whose download raises; the worker marks it done
(counter drops from 1 to 0) and crashes, leaving the remaining queue
untouched. -/
theorem C2_error_kills_worker_after_markdone_witness :
    VideoWorker.run
      (processJob (fun _ _ => Except.error "network down")
        (fun _ => Except.ok ()) "u")
      5 { items := [demoJob], unfinished := 1 } =
      ([demoJob], { items := [], unfinished := 0 }, .crashed "network down") := by
  have h := C2_error_kills_worker_after_markdone
    (fun _ _ => Except.error "network down") (fun _ => Except.ok ()) "u" 4
    { items := [demoJob], unfinished := 1 } demoJob [] "network down"
    rfl (by decide) rfl
  simpa using h

/-- If every job in the queue processes successfully and the worker has
enough fuel, the worker dequeues exactly the pending items, in list order,
and ends blocked on an empty queue. -/
lemma run_consumes_items_in_order (proc : Job → Except String Unit) :
    ∀ (fuel : Nat) (q : WorkQueue Job),
      (∀ j ∈ q.items, proc j = .ok ()) →
      q.items.length ≤ fuel →
      (q.items.length : Int) ≤ q.unfinished →
      (VideoWorker.run proc fuel q).1 = q.items ∧
      (VideoWorker.run proc fuel q).2.1.items = [] := by
  intro fuel
  induction fuel with
  | zero =>
    intro q hok hfuel _
    have : q.items = [] := List.length_eq_zero.mp (Nat.le_zero.mp hfuel)
    simp [VideoWorker.run, this]
  | succ n ih =>
    intro q hok hfuel hu
    match hq : q.items with
    | [] => simp [VideoWorker.run, hq]
    | j :: rest =>
      rw [hq] at hok hfuel hu
      have hj : proc j = .ok () := hok j (by simp)
      have hguard : ¬ q.unfinished - 1 < 0 := by
        simp [List.length_cons] at hu
        omega
      have hrec := ih { items := rest, unfinished := q.unfinished - 1 }
        (fun x hx => hok x (by simp [hx]))
        (by simpa [List.length_cons] using Nat.le_of_succ_le_succ hfuel)
        (by simp [List.length_cons] at hu ⊢; omega)
      simp only [VideoWorker.run, hq, WorkQueue.task_done, hguard, if_neg, hj]
      simp only [VideoWorker.run] at hrec
      simp [hrec.1, hrec.2]

/-- C5: jobs are dequeued in FIFO submission order: `get` removes and
returns the head of the pending sequence, so a single worker dequeues and
processes jobs submitted in order `[A, B, C]` in exactly that order. -/
theorem C5_fifo_dequeue_order (A B C : Job) (proc : Job → Except String Unit)
    (fuel : Nat) (hok : ∀ j, proc j = .ok ()) (hfuel : 3 ≤ fuel) :
    (∀ (x : Job) (rest : List Job) (u : Int),
      WorkQueue.get { items := x :: rest, unfinished := u } =
        some (x, { items := rest, unfinished := u })) ∧
    (VideoWorker.run proc fuel
      ((((WorkQueue.init Job).put A).put B).put C)).1 = [A, B, C] := by
  refine ⟨fun x rest u => rfl, ?_⟩
  have h := run_consumes_items_in_order proc fuel
    ((((WorkQueue.init Job).put A).put B).put C)
    (fun j _ => hok j) (by simpa [WorkQueue.init, WorkQueue.put] using hfuel)
    (by simp [WorkQueue.init, WorkQueue.put])
  simpa [WorkQueue.init, WorkQueue.put] using h.1

/-- Witness for C5 at three concrete jobs and a trivially succeeding
processing function. -/
theorem C5_fifo_dequeue_order_witness :
    (VideoWorker.run (fun _ => Except.ok ()) 3
      ((((WorkQueue.init Job).put demoJob).put
        { demoJob with title := "SongB" }).put
        { demoJob with title := "SongC" })).1 =
      [demoJob, { demoJob with title := "SongB" },
        { demoJob with title := "SongC" }] :=
  (C5_fifo_dequeue_order demoJob { demoJob with title := "SongB" }
    { demoJob with title := "SongC" } (fun _ => Except.ok ()) 3
    (fun _ => rfl) (by decide)).2

/-- Along a successfully executed trace, the outstanding counter never goes
negative. -/
lemma runTrace_nonneg :
    ∀ (tr : List (QOp Job)) (q q' : WorkQueue Job), 0 ≤ q.unfinished →
      runTrace q tr = .ok q' → 0 ≤ q'.unfinished := by
  intro tr
  induction tr with
  | nil =>
    intro q q' h0 hrun
    simp [runTrace] at hrun
    exact hrun ▸ h0
  | cons op rest ih =>
    intro q q' h0 hrun
    match op with
    | .put x =>
      simp [runTrace, stepOp] at hrun
      exact ih (q.put x) q' (by simp [WorkQueue.put]; omega) hrun
    | .get =>
      simp only [runTrace, stepOp] at hrun
      match hq : q.get with
      | none => rw [hq] at hrun; cases hrun
      | some (x, q1) =>
        rw [hq] at hrun
        have hq1 : q1.unfinished = q.unfinished := by
          unfold WorkQueue.get at hq
          match hi : q.items with
          | [] => rw [hi] at hq; cases hq
          | y :: ys => rw [hi] at hq; cases hq; rfl
        exact ih q1 q' (by omega) hrun
    | .done =>
      simp only [runTrace, stepOp, WorkQueue.task_done] at hrun
      by_cases hneg : q.unfinished - 1 < 0
      · simp [hneg] at hrun
      · simp [hneg] at hrun
        exact ih _ q' (by simp; omega) hrun

/-- C3 counterexample: the claim says calling `markDone` more times than
jobs were dequeued is detected (fails fast).  In the code the guard is on
the enqueue count, not the dequeue count: in the trace below `task_done`
is called twice after a single `get` (two jobs were enqueued), yet the
trace executes without any error and the counter simply reaches zero —
the misuse is not detected. -/
theorem C3_overdone_not_detected_counterexample :
    runTrace (WorkQueue.init Job)
      [.put demoJob, .put demoJob, .get, .done, .done] =
      .ok { items := [demoJob], unfinished := 0 } ∧
    countDones [QOp.put demoJob, .put demoJob, .get, .done, .done] = 2 ∧
    countGets [QOp.put demoJob, .put demoJob, .get, .done, .done] = 1 := by
  refine ⟨?_, by decide, by decide⟩
  decide

/-- C3 as amended: the outstanding counter never goes negative along any
successfully executed operation sequence, and a `markDone` that would drive
it below zero — i.e. more `markDone` calls than jobs were *enqueued* —
fails fast with `ValueError` instead of updating the counter.  (Extra
`markDone` calls beyond the dequeue count but within the enqueue count are
not detected, as the counterexample shows.) -/
theorem C3_counter_nonneg_and_enqueue_guard :
    (∀ (tr : List (QOp Job)) (q' : WorkQueue Job),
      runTrace (WorkQueue.init Job) tr = .ok q' → 0 ≤ q'.unfinished) ∧
    (∀ q : WorkQueue Job, q.unfinished ≤ 0 →
      q.task_done = .error "task_done() called too many times") := by
  constructor
  · intro tr q' hrun
    exact runTrace_nonneg tr (WorkQueue.init Job) q' (by simp [WorkQueue.init]) hrun
  · intro q hq
    unfold WorkQueue.task_done
    simp only [if_pos (by omega : q.unfinished - 1 < 0)]

/-- Witness for the amended C3: a one-put trace ends with a non-negative
counter, and `task_done` on a fresh queue fails fast. -/
theorem C3_counter_nonneg_and_enqueue_guard_witness :
    (0 : Int) ≤ (({ items := [demoJob], unfinished := 1 } : WorkQueue Job)).unfinished ∧
    (WorkQueue.init Job).task_done = .error "task_done() called too many times" :=
  ⟨C3_counter_nonneg_and_enqueue_guard.1 [.put demoJob]
      { items := [demoJob], unfinished := 1 } (by decide),
   C3_counter_nonneg_and_enqueue_guard.2 (WorkQueue.init Job) (by decide)⟩

/-- A successful `get` pops exactly the head: the old pending sequence is
the returned item consed on the new one, and the counter is untouched. -/
lemma get_eq_some (q : WorkQueue α) (x : α) (q' : WorkQueue α)
    (h : q.get = some (x, q')) :
    q.items = x :: q'.items ∧ q'.unfinished = q.unfinished := by
  unfold WorkQueue.get at h
  match hi : q.items with
  | [] => rw [hi] at h; cases h
  | y :: ys => rw [hi] at h; cases h; exact ⟨rfl, rfl⟩

/-- A successful `task_done` decrements the counter by one and leaves the
pending sequence alone. -/
lemma task_done_eq_ok (q q' : WorkQueue α) (h : q.task_done = .ok q') :
    q'.items = q.items ∧ q'.unfinished = q.unfinished - 1 := by
  unfold WorkQueue.task_done at h
  by_cases hneg : q.unfinished - 1 < 0
  · simp [hneg] at h
  · simp [hneg] at h
    cases h
    exact ⟨rfl, rfl⟩

/-- Updating one known entry of a list shifts `countP` by the change at
that entry. -/
lemma countP_set (p : WState → Bool) :
    ∀ (l : List WState) (i : Nat) (a x : WState),
      l.get? i = some a →
      (l.set i x).countP p + (if p a then 1 else 0) =
        l.countP p + (if p x then 1 else 0) := by
  intro l
  induction l with
  | nil => intro i a x h; simp at h
  | cons y ys ih =>
    intro i a x h
    match i with
    | 0 =>
      simp only [List.get?_cons_zero, Option.some.injEq] at h
      subst h
      simp [List.set, List.countP_cons]
      omega
    | n + 1 =>
      simp only [List.get?_cons_succ] at h
      have hrec := ih n a x h
      simp [List.set, List.countP_cons]
      omega

/-- The run invariant: along any successfully executed schedule, the
number of pending items drops by the number of performed `get`s, the
number of holding workers changes by `get`s minus `task_done`s, and the
outstanding counter drops by the number of performed `task_done`s. -/
lemma runSched_spec :
    ∀ (sched : List Nat) (s s' : SysState) (g d : Nat),
      runSched s sched = some (s', g, d) →
      s.q.items.length = s'.q.items.length + g ∧
      countHolding s'.workers + d = countHolding s.workers + g ∧
      s'.q.unfinished + (d : Int) = s.q.unfinished := by
  intro sched
  induction sched with
  | nil =>
    intro s s' g d h
    simp only [runSched, Option.some.injEq, Prod.mk.injEq] at h
    obtain ⟨h1, h2, h3⟩ := h
    subst h1; subst h2; subst h3
    simp
  | cons i rest ih =>
    intro s s' g d h
    rw [runSched] at h
    split at h
    · exact ih s s' g d h
    · -- idle worker
      split at h
      · exact ih s s' g d h
      · rename_i hw xo j q1 hg
        match hrec : runSched { q := q1, workers := s.workers.set i (.holding j) } rest with
        | none => rw [hrec] at h; cases h
        | some (s1, g1, d1) =>
          rw [hrec] at h
          simp only [Option.map_some', Option.some.injEq, Prod.mk.injEq] at h
          obtain ⟨hs, hgg, hdd⟩ := h
          subst hs; subst hgg; subst hdd
          have hget := get_eq_some s.q j q1 hg
          have hcnt := countP_set WState.isHolding s.workers i .idle (.holding j) hw
          have hspec := ih _ s1 g1 d1 hrec
          simp [WState.isHolding] at hcnt
          obtain ⟨h1, h2, h3⟩ := hspec
          simp only [countHolding] at h1 h2 h3 hcnt ⊢
          refine ⟨?_, ?_, ?_⟩
          · rw [hget.1]
            simp only [List.length_cons]
            omega
          · omega
          · rw [← hget.2]
            omega
    · -- holding worker
      split at h
      · cases h
      · rename_i j0 hw xe q1 ht
        match hrec : runSched { q := q1, workers := s.workers.set i .idle } rest with
        | none => rw [hrec] at h; cases h
        | some (s1, g1, d1) =>
          rw [hrec] at h
          simp only [Option.map_some', Option.some.injEq, Prod.mk.injEq] at h
          obtain ⟨hs, hgg, hdd⟩ := h
          subst hs; subst hgg; subst hdd
          have hdone := task_done_eq_ok s.q q1 ht
          have hcnt := countP_set WState.isHolding s.workers i (.holding j0) .idle hw
          have hspec := ih _ s1 g1 d1 hrec
          simp [WState.isHolding] at hcnt
          obtain ⟨h1, h2, h3⟩ := hspec
          simp only [countHolding] at h1 h2 h3 hcnt ⊢
          refine ⟨?_, ?_, ?_⟩
          · rw [hdone.1] at h1
            omega
          · omega
          · rw [hdone.2] at h3
            omega

/-- No worker of a freshly constructed pool holds a job. -/
lemma countHolding_replicate_idle (W : Nat) :
    countHolding (List.replicate W .idle) = 0 := by
  simp only [countHolding, List.countP_eq_zero]
  intro a ha
  simp [List.eq_of_mem_replicate ha, WState.isHolding]

/-- C1: with `N ≥ 1` jobs submitted to a pipeline with `W ≥ 1` workers,
`close()` (the queue's `join`) returns only after `task_done` has been
performed exactly `N` times — and each enqueued job was dequeued exactly
once — regardless of the interleaving of the workers. -/
theorem C1_close_returns_after_exactly_n_markdone (N W : Nat)
    (links : List (String × String)) (vf dir : String) (sched : List Nat)
    (s' : SysState) (g d : Nat)
    (hN : 1 ≤ N) (hW : 1 ≤ W) (hlen : links.length = N)
    (hrun : runSched (initSys W links vf dir) sched = some (s', g, d))
    (hclose : (DownloadQueue.close s'.q).isSome = true) :
    d = N ∧ g = N := by
  have hspec := runSched_spec sched _ s' g d hrun
  have hitems : (initSys W links vf dir).q.items.length = N := by
    simp [initSys, load_links_items, hlen, WorkQueue.init]
  have hunf : (initSys W links vf dir).q.unfinished = (N : Int) := by
    simp [initSys, load_links_unfinished, WorkQueue.init, hlen]
  have hhold : countHolding (initSys W links vf dir).workers = 0 :=
    countHolding_replicate_idle W
  have hcl : s'.q.unfinished = 0 := by
    by_cases h : s'.q.unfinished = 0
    · exact h
    · simp [DownloadQueue.close, WorkQueue.join, h] at hclose
  obtain ⟨h1, h2, h3⟩ := hspec
  rw [hitems] at h1
  rw [hunf] at h3
  rw [hhold] at h2
  rw [hcl] at h3
  constructor <;> omega

/-- Witness for C1: one job, one worker, the schedule that lets the worker
dequeue and then mark done; the barrier is open and exactly one `get` and
one `task_done` happened. -/
theorem C1_close_returns_after_exactly_n_markdone_witness :
    runSched (initSys 1 [("SongA", "linkA")] "video.mp4" "temp") [0, 0] =
      some ({ q := { items := [], unfinished := 0 }, workers := [.idle] }, 1, 1) ∧
    ((1 : Nat) = 1 ∧ (1 : Nat) = 1) :=
  ⟨by decide,
   C1_close_returns_after_exactly_n_markdone 1 1 [("SongA", "linkA")]
     "video.mp4" "temp" [0, 0]
     { q := { items := [], unfinished := 0 }, workers := [.idle] } 1 1
     (by decide) (by decide) rfl (by decide) (by decide)⟩
